import Mathlib

set_option autoImplicit false
set_option maxRecDepth 8000

/-!
Verification of the audit input pipeline and dispatch/aggregation engine of the
audit_mcp repository.

Strings are modelled as lists of characters (`Str`), so that every operation is
an executable structural recursion.  The JavaScript functions of
`audit-mcp-server.ts` (the `audit-common` part), the git resolver functions of
`auto-audit.js`, and sections 7 and 8 of `pre_audit.sh` are embedded as pure
Lean functions.  Network effects (the chat-completion HTTP calls) are modelled
by an explicit gateway oracle `Gateway` mapping a provider name and a message
list to either a completion text or an error; filesystem persistence is
modelled by passing the stored report path explicitly.
-/

/-- Character-list strings: the carrier for every embedded string operation. -/
abbrev Str := List Char

/-- JS string-or fallback: `a || b` on strings picks `a` unless it is empty
(empty strings are falsy in JavaScript). -/
def jsOr (a b : Str) : Str := if a = [] then b else a

/-- JS `s.split("\n")` on a character list.  Note the JavaScript behaviour:
splitting the empty string yields `[""]`, and a trailing newline yields a
trailing empty piece. -/
def jsSplitOnNl : Str → List Str
  | [] => [[]]
  | c :: cs =>
    if c = '\n' then [] :: jsSplitOnNl cs
    else
      match jsSplitOnNl cs with
      | [] => [[c]]
      | l :: ls => (c :: l) :: ls

/-- JS `array.join("\n")`. -/
def joinNl : List Str → Str
  | [] => []
  | [l] => l
  | l :: l2 :: ls => l ++ '\n' :: joinNl (l2 :: ls)

/-- JS `array.join(sep)` for an arbitrary separator. -/
def joinSep (sep : Str) : List Str → Str
  | [] => []
  | [l] => l
  | l :: l2 :: ls => l ++ sep ++ joinSep sep (l2 :: ls)

/-- Concatenation of newline-terminated lines; used to reason about shell
loops that append `line + "\n"` to an accumulator. -/
def joinTermNl : List Str → Str
  | [] => []
  | l :: ls => l ++ '\n' :: joinTermNl ls

/-- JS `Map.set` on an insertion-ordered association list: an existing key is
updated in place (keeping its original position), a new key is appended. -/
def mapSet (m : List (Str × Str)) (k v : Str) : List (Str × Str) :=
  match m with
  | [] => [(k, v)]
  | (k0, v0) :: rest => if k0 = k then (k, v) :: rest else (k0, v0) :: mapSet rest k v

/-- Greedy split of a string at the LAST occurrence of the marker `" b/"` that
leaves a nonempty remainder.  This is the backtracking behaviour of the greedy
regular expression `a\/(.+) b\/(.+)$`: the first capture group is maximal
subject to the second one being nonempty. -/
def splitAtLastMarker : Str → Option (Str × Str)
  | [] => none
  | c :: cs =>
    match splitAtLastMarker cs with
    | some (g1, g2) => some (c :: g1, g2)
    | none =>
      if c = ' ' ∧ cs.take 2 = ['b', '/'] ∧ cs.drop 2 ≠ [] then some ([], cs.drop 2)
      else none

/-- Characters that the JavaScript regexp metacharacter `.` does NOT match
(line terminators). -/
def isJsLineTerm (c : Char) : Bool :=
  c = '\n' || c = '\r' || c = '\u2028' || c = '\u2029'

/-- The fixed header marker `diff --git a/` (13 characters). -/
def diffGitA : Str := ("diff --git a/").data

/-- The fixed header marker `diff --git` (10 characters), the pattern grepped
for in `pre_audit.sh` section 8. -/
def diffGit : Str := ("diff --git").data

/-- JS `line.match(/^diff --git a\/(.+) b\/(.+)$/)`, returning the first
capture group (the file path) when the line is a diff file header
(`audit-mcp-server.ts` line 138).  `.` does not match line terminators in
JavaScript, and both capture groups must be nonempty; the first group is
greedy, so the split happens at the last viable `" b/"`. -/
def jsDiffHeaderPath (line : Str) : Option Str :=
  if line.take 13 = diffGitA ∧ (line.drop 13).all (fun c => !(isJsLineTerm c)) then
    match splitAtLastMarker (line.drop 13) with
    | some (g1, _) => if g1 ≠ [] then some g1 else none
    | none => none
  else none

/-- Bash `[[ "$line" =~ ^diff\ --git\ a/(.+)\ b/(.+)$ ]]` with
`BASH_REMATCH[1]` (POSIX extended regexp; `.` matches any character of the
line, including carriage returns, and the first group is longest). -/
def bashDiffHeaderPath (line : Str) : Option Str :=
  if line.take 13 = diffGitA then
    match splitAtLastMarker (line.drop 13) with
    | some (g1, _) => if g1 ≠ [] then some g1 else none
    | none => none
  else none

/-- Loop state of the `forEach` in `splitDiffByFiles`
(`audit-mcp-server.ts` lines 134-135). -/
structure SplitState where
  fileMap : List (Str × Str)
  currentFile : Str
  currentContent : List Str

/-- One `forEach` iteration of `splitDiffByFiles`
(`audit-mcp-server.ts` lines 140-156). -/
def splitStep (st : SplitState) (line : Str) : SplitState :=
  match jsDiffHeaderPath line with
  | some path =>
    let m :=
      if st.currentFile ≠ [] ∧ st.currentContent ≠ [] then
        mapSet st.fileMap st.currentFile (joinNl st.currentContent)
      else st.fileMap
    { fileMap := m, currentFile := path, currentContent := [line] }
  | none =>
    if st.currentFile ≠ [] then
      { st with currentContent := st.currentContent ++ [line] }
    else st

/-- Final flush of `splitDiffByFiles` (`audit-mcp-server.ts` lines 159-161). -/
def splitFinish (st : SplitState) : List (Str × Str) :=
  if st.currentFile ≠ [] ∧ st.currentContent ≠ [] then
    mapSet st.fileMap st.currentFile (joinNl st.currentContent)
  else st.fileMap

/-- `splitDiffByFiles` (`audit-mcp-server.ts` lines 129-164): splits a unified
diff into per-file segments keyed by the path extracted from each
`diff --git a/... b/...` header.  The result models the insertion-ordered JS
`Map`, so duplicate paths overwrite in place and lines before the first header
are dropped. -/
def splitDiffByFiles (diffContent : Str) : List (Str × Str) :=
  if diffContent = [] then []
  else splitFinish ((jsSplitOnNl diffContent).foldl splitStep ⟨[], [], []⟩)

/-- A chat message record (role and content). -/
structure ChatMessage where
  role : Str
  content : Str
deriving DecidableEq

/-- The audit request shape (`AuditRequest` in `audit-mcp-server.ts`
lines 117-123); `changed_files` is optional. -/
structure AuditRequest where
  request : Str
  modification_description : Str
  code_changes : Str
  function_list : Str
  changed_files : Option (List Str)
deriving DecidableEq

/-- Relevant process environment: provider selection and credentials.  An
unset or empty variable is the empty string (both are falsy in JavaScript). -/
structure Env where
  openaiKey : Str
  deepseekKey : Str
  aiProvider : Str
  defaultAiProvider : Str

/-- Completion provider oracle: given a provider name and the messages of one
chat-completion HTTP call, returns the completion text or a request error.
This abstracts `callOpenAICompletion` and `callDeepSeekCompletion`. -/
abbrev Gateway := Str → List ChatMessage → Except Str Str

/-- Provider name `openai`. -/
def openaiName : Str := ("openai").data

/-- Provider name `deepseek`. -/
def deepseekName : Str := ("deepseek").data

/-- Error message for a missing OpenAI credential
(`audit-mcp-server.ts` lines 196 and 361). -/
def openaiKeyMissingMsg : Str := ("環境変数 OPENAI_API_KEY が設定されていません。").data

/-- Error message for a missing DeepSeek credential
(`audit-mcp-server.ts` line 366). -/
def deepseekKeyMissingMsg : Str := ("環境変数 DEEPSEEK_API_KEY が設定されていません。").data

/-- Error message for an unsupported provider selector
(`audit-mcp-server.ts` line 370). -/
def unsupportedProviderMsg (p : Str) : Str := ("未対応のAIプロバイダです: ").data ++ p

/-- `getAIProvider` (`audit-mcp-server.ts` lines 184-187) together with the
module-level `DEFAULT_PROVIDER` (line 112): `AI_PROVIDER`, falling back to
`DEFAULT_AI_PROVIDER`, falling back to `deepseek`. -/
def getAIProvider (env : Env) : Str :=
  jsOr env.aiProvider (jsOr env.defaultAiProvider deepseekName)

/-- `callCompletion` (`audit-mcp-server.ts` lines 352-372): selects the
provider, requires the matching credential, and forwards the messages to the
provider backend (the gateway oracle). -/
def callCompletion (env : Env) (net : Gateway) (messages : List ChatMessage) : Except Str Str :=
  let provider := getAIProvider env
  if provider = openaiName then
    if env.openaiKey = [] then Except.error openaiKeyMissingMsg
    else net openaiName messages
  else if provider = deepseekName then
    if env.deepseekKey = [] then Except.error deepseekKeyMissingMsg
    else net deepseekName messages
  else Except.error (unsupportedProviderMsg provider)

/-- The fixed system prompt of a single audit request
(`audit-mcp-server.ts` lines 279-319). -/
def auditSystemPrompt : Str :=
  ("あなたはソフトウェア監査ツールです。与えられた「リクエスト」「変更内容」「差分」「function_list」「変更ファイル一覧」を確認し、下記の観点で監査してください：\n\n【重要な監査観点】\n1. 指示していない変更がないか（修正内容に記載されていない変更が行われていないか）\n2. 既存機能が削除されていないか（特にfunction_list.txtに記載されている機能が失われていないか）\n3. TODO / FIXME が残っていないか\n4. 修正内容とコードの差分に整合性があるか（修正内容で述べられていることと実際のコード変更が一致しているか）\n5. 修正内容に記載されている目的が適切に実装されているか\n\n必ず以下の形式で監査レポートを作成してください：\n\n# コード監査レポート\n\n## 1. 指示していない変更\n[指示していない変更の有無とその詳細を記載。なければ「指示していない変更は見つかりませんでした。」と記載]\n\n## 2. 既存機能の削除\n[既存機能が削除されていないか、特にfunction_list.txtに記載されている機能が失われていないか確認した結果を記載]\n\n## 3. TODO/FIXME の残存\n[TODO/FIXMEコメントの有無とその詳細を記載。なければ「残存しているTODO/FIXMEコメントは見つかりませんでした。」と記載]\n\n## 4. 修正内容との整合性\n[修正内容の説明と実際のコード変更が一致しているか詳細に分析した結果を記載]\n\n## 5. 目的の実装状況\n[修正内容に記載されている目的が適切に実装されているか詳細に確認した結果を記載]\n\n## 6. 技術的問題点\n[コード品質、パフォーマンス、セキュリティなどの技術的観点での問題点があれば箇条書きで指摘]\n- 問題点1 [重要度: 高/中/低]\n- 問題点2 [重要度: 高/中/低]\n- ...\n\n## 7. 総合評価\n[監査全体の総合評価と、改善すべき重要な点を簡潔にまとめる]\n\n## function_list.txt更新案\n[今回の修正に関連してfunction_list.txtに追加・更新すべき内容。関数の振る舞いが正確に理解できるような詳細な説明と、変更されたプロンプトがある場合はそのプロンプトも含める]\n\n上記の各セクションは必ず含め、具体的かつ詳細な情報を提供してください。特に修正内容との整合性と目的の実装状況については詳細に分析してください。").data

/-- Placeholder when no changed files are listed (`audit-mcp-server.ts`
line 331). -/
def noFilesListed : Str := ("（なし）").data

/-- The user message content of a single audit request
(`audit-mcp-server.ts` lines 323-342). -/
def auditUserContent (inputData : AuditRequest) : Str :=
  ("\n【リクエスト】:\n").data ++ inputData.request ++
  ("\n\n【修正内容の概要】:\n").data ++ inputData.modification_description ++
  ("\n\n【変更されたファイル】:\n").data ++
  jsOr (joinNl (inputData.changed_files.getD [])) noFilesListed ++
  ("\n\n【function_list.txt の内容】:\n```\n").data ++ inputData.function_list ++
  ("\n```\n\n【コード差分】:\n```diff\n").data ++ inputData.code_changes ++
  ("\n```\n").data

/-- Role name `system`. -/
def systemRole : Str := ("system").data

/-- Role name `user`. -/
def userRole : Str := ("user").data

/-- The message list of a single audit request
(`audit-mcp-server.ts` lines 276-344). -/
def auditMessages (inputData : AuditRequest) : List ChatMessage :=
  [⟨systemRole, auditSystemPrompt⟩, ⟨userRole, auditUserContent inputData⟩]

/-- `sendSingleAuditRequest` (`audit-mcp-server.ts` lines 274-347): builds the
prompt messages and forwards them to `callCompletion`.  The `apiKey` parameter
of the source is passed through unused (`callCompletion` reads the
environment itself), so it is omitted here. -/
def sendSingleAuditRequest (env : Env) (net : Gateway) (inputData : AuditRequest) : Except Str Str :=
  callCompletion env net (auditMessages inputData)

/-- The per-file audit request built on the split dispatch path
(`audit-mcp-server.ts` lines 218-224). -/
def perFileRequest (inputData : AuditRequest) (filePath diffContent : Str) : AuditRequest :=
  { request := inputData.request ++ (" - ファイル: ").data ++ filePath
    modification_description :=
      inputData.modification_description ++
      (" - このリクエストはファイル \"").data ++ filePath ++ ("\" のみを対象としています。").data
    code_changes := diffContent
    function_list := inputData.function_list
    changed_files := some [filePath] }

/-- The visible per-file error marker recorded when one segment fails
(`audit-mcp-server.ts` line 237). -/
def errorMarker (e : Str) : Str := ("エラー: ").data ++ e

/-- The per-file result list of the split dispatch path
(`audit-mcp-server.ts` lines 211-240): each segment is audited independently
and a failing segment is caught and recorded as a visible error marker. -/
def fileResultsOf (env : Env) (net : Gateway) (inputData : AuditRequest)
    (fileDiffs : List (Str × Str)) : List (Str × Str) :=
  fileDiffs.map (fun fd =>
    match sendSingleAuditRequest env net (perFileRequest inputData fd.1 fd.2) with
    | Except.ok r => (fd.1, r)
    | Except.error err => (fd.1, errorMarker err))

/-- One rendered per-file section (`audit-mcp-server.ts` lines 243-244). -/
def sectionRender (item : Str × Str) : Str :=
  ("## ").data ++ item.1 ++ (" の監査結果:\n\n").data ++ item.2 ++ ("\n").data

/-- The separator rule between per-file sections
(`audit-mcp-server.ts` line 245). -/
def sepRule : Str := ("\n---\n\n").data

/-- The combined detailed results (`audit-mcp-server.ts` lines 243-245). -/
def combinedResultsOf (fileResults : List (Str × Str)) : Str :=
  joinSep sepRule (fileResults.map sectionRender)

/-- One summary prompt line per file result
(`audit-mcp-server.ts` line 255): path plus the first 100 characters of the
completion text (`substring(0, 100)`), followed by an ellipsis. -/
def summaryLine (item : Str × Str) : Str :=
  ("- ").data ++ item.1 ++ (": ").data ++ item.2.take 100 ++ ("...").data

/-- The summary prompt of the split dispatch path
(`audit-mcp-server.ts` lines 248-256). -/
def summaryPrompt (inputData : AuditRequest) (fileResults : List (Str × Str)) : Str :=
  ("\n以下は、コード変更の各ファイルに対する監査結果です。これらの結果を総合的に分析し、変更全体に対する簡潔なサマリーを作成してください。\n問題点があれば箇条書きで指摘し、全体の評価を付けてください。\n\n変更の概要: ").data ++
  inputData.modification_description ++
  ("\n\nファイル監査結果:\n").data ++
  joinNl (fileResults.map summaryLine) ++ ("\n").data

/-- The fixed system prompt of the summary call
(`audit-mcp-server.ts` line 262). -/
def summarySystemPrompt : Str :=
  ("あなたはコード監査の専門家です。複数のファイル監査結果を統合して、全体の評価を提供してください。").data

/-- The message list of the summary call
(`audit-mcp-server.ts` lines 259-265). -/
def summaryMessages (inputData : AuditRequest) (fileResults : List (Str × Str)) : List ChatMessage :=
  [⟨systemRole, summarySystemPrompt⟩, ⟨userRole, summaryPrompt inputData fileResults⟩]

/-- The final aggregated report (`audit-mcp-server.ts` line 268): the summary
section followed by the detailed per-file sections. -/
def finalReport (summaryResult combinedResults : Str) : Str :=
  ("# 監査サマリー\n\n").data ++ summaryResult ++
  ("\n\n# 詳細な監査結果\n\n").data ++ combinedResults

/-- `callOpenAIAudit` (`audit-mcp-server.ts` lines 193-269): requires
`OPENAI_API_KEY` unconditionally, splits the diff, and either sends one
request covering the whole diff (at most 2 segments, or fewer than 10000
characters) or audits each segment independently, then makes one extra
summary call and assembles the final report. -/
def callOpenAIAudit (env : Env) (net : Gateway) (inputData : AuditRequest) : Except Str Str :=
  if env.openaiKey = [] then Except.error openaiKeyMissingMsg
  else
    let fileDiffs := splitDiffByFiles inputData.code_changes
    if fileDiffs.length ≤ 2 ∨ inputData.code_changes.length < 10000 then
      sendSingleAuditRequest env net inputData
    else
      let fileResults := fileResultsOf env net inputData fileDiffs
      match callCompletion env net (summaryMessages inputData fileResults) with
      | Except.error e => Except.error e
      | Except.ok summaryResult =>
        Except.ok (finalReport summaryResult (combinedResultsOf fileResults))

/-- The list of audit requests dispatched by `callOpenAIAudit`
(`audit-mcp-server.ts` lines 199-224): one `sendSingleAuditRequest` call per
element.  On the small path the single request is the input itself (covering
the whole diff); otherwise one per-file request per segment.  The extra
summary call of the split path is not an audit request. -/
def dispatchedAuditRequests (inputData : AuditRequest) : List AuditRequest :=
  let fileDiffs := splitDiffByFiles inputData.code_changes
  if fileDiffs.length ≤ 2 ∨ inputData.code_changes.length < 10000 then [inputData]
  else fileDiffs.map (fun fd => perFileRequest inputData fd.1 fd.2)

/-- Result record of `performAudit` (`audit-mcp-server.ts` lines 509-514). -/
structure AuditReport where
  status : Str
  message : Str
  reportPath : Str
  aiReport : Str
deriving DecidableEq

/-- Status string of a successful audit. -/
def successStatus : Str := ("success").data

/-- Message string of a successful audit (`audit-mcp-server.ts` line 536). -/
def successMessage : Str := ("監査レポートを生成しました。").data

/-- `performAudit` (`audit-mcp-server.ts` lines 509-544): runs the audit,
persists the report and returns the report record; any error from the audit
propagates to the caller and nothing is persisted.  The filesystem is
abstracted by the `reportPath` parameter standing for the path returned by
`saveAuditReport`. -/
def performAudit (env : Env) (net : Gateway) (reportPath : Str)
    (inputData : AuditRequest) : Except Str AuditReport :=
  match callOpenAIAudit env net inputData with
  | Except.error e => Except.error e
  | Except.ok aiReport => Except.ok ⟨successStatus, successMessage, reportPath, aiReport⟩

/-- POSIX basic-regexp full-line match `grep -q "^PAT$"` restricted to the
patterns that occur in `pre_audit.sh` (file paths): the only metacharacter
modelled is `.`, which matches any single character; every other pattern
character must match literally. -/
def breMatch : Str → Str → Bool
  | [], [] => true
  | p :: ps, c :: cs => (p == '.' || p == c) && breMatch ps cs
  | _, _ => false

/-- Membership test `echo "$combinedFiles" | grep -q "^$p$"` of
`pre_audit.sh` (lines 283 and 314): the candidate path `p` is interpreted as
a regular expression and matched against each line of the authorized list. -/
def inCombined (combinedFiles p : Str) : Bool :=
  (jsSplitOnNl combinedFiles).any (fun l => breMatch p l)

/-- The `sed -E 's/^diff --git a\/([^ ]+) b\/([^ ]+)$/\1/'` substitution of
`pre_audit.sh` line 274: if the whole line matches (both groups nonempty and
free of spaces) the first group replaces the line, otherwise the line passes
through unchanged. -/
def sedHeaderPath (line : Str) : Option Str :=
  if line.take 13 = diffGitA then
    let rest := line.drop 13
    let g1 := rest.takeWhile (fun c => c != ' ')
    match rest.dropWhile (fun c => c != ' ') with
    | ' ' :: 'b' :: '/' :: g2 =>
      if g1 ≠ [] ∧ g2 ≠ [] ∧ g2.all (fun c => c != ' ') then some g1 else none
    | _ => none
  else none

/-- One line of the `grep -E "^diff --git" | sed ...` pipeline of
`pre_audit.sh` line 274 (applied only to lines that begin with
`diff --git`). -/
def sedExtract (line : Str) : Str :=
  match sedHeaderPath line with
  | some p => p
  | none => line

/-- The `unexpected_files` computation of `pre_audit.sh` lines 274-290: every
nonempty extracted header path of the diff that does not regex-match any line
of the authorized list, in order of occurrence. -/
def sec8Unexpected (combinedFiles codeChanges : Str) : List Str :=
  (((jsSplitOnNl codeChanges).filter (fun l => l.take 10 = diffGit)).map sedExtract).filter
    (fun f => f ≠ [] ∧ ¬ inCombined combinedFiles f = true)

/-- Loop state of the stripping pass of `pre_audit.sh` lines 303-326. -/
structure Sec8State where
  filtered : Str
  includeLines : Bool

/-- One iteration of the stripping loop of `pre_audit.sh` lines 308-326: a
header line switches retention on or off according to regex membership of its
path in the authorized list, other lines inherit the current decision.  Every
retained line is appended together with a newline. -/
def sec8Step (combinedFiles : Str) (st : Sec8State) (line : Str) : Sec8State :=
  match bashDiffHeaderPath line with
  | some p =>
    if inCombined combinedFiles p then ⟨st.filtered ++ (line ++ ['\n']), true⟩
    else ⟨st.filtered, false⟩
  | none =>
    if st.includeLines then ⟨st.filtered ++ (line ++ ['\n']), st.includeLines⟩
    else st

/-- Section 8 of `pre_audit.sh` (lines 268-331): verify the diff content and,
when unexpected files are present, strip their segments line by line.  Returns
the (possibly rewritten) diff and the list of unexpected files found. -/
def sec8Verify (combinedFiles codeChanges : Str) : Str × List Str :=
  let unexpected := sec8Unexpected combinedFiles codeChanges
  if unexpected ≠ [] then
    (((jsSplitOnNl codeChanges).foldl (sec8Step combinedFiles) ⟨[], true⟩).filtered, unexpected)
  else (codeChanges, unexpected)

/-- Whitespace as split by the default awk field separator. -/
def isAwkWs (c : Char) : Bool := c == ' ' || c == '\t'

/-- Helper for `awkFields`: accumulates the current (reversed) field. -/
def awkFieldsAux (cur : Str) : Str → List Str
  | [] => if cur = [] then [] else [cur.reverse]
  | c :: cs =>
    if isAwkWs c then
      if cur = [] then awkFieldsAux [] cs else cur.reverse :: awkFieldsAux [] cs
    else awkFieldsAux (c :: cur) cs

/-- The awk fields `$1, $2, ...` of a line: maximal runs of non-whitespace
characters. -/
def awkFields (line : Str) : List Str := awkFieldsAux [] line

/-- One record step of the awk program of `pre_audit.sh` lines 238-249.
State: `(in_file, file_diff)`.  On a header line, `in_file` resets and the
line is kept only when `$3 == "b/"file` or `$2 == "a/"file`; on other lines
the record is kept when `in_file` is set. -/
def awkStep (file : Str) (st : Bool × Str) (line : Str) : Bool × Str :=
  if line.take 13 = diffGitA then
    let fs := awkFields line
    if fs.getD 2 [] = ('b' :: '/' :: file) ∨ fs.getD 1 [] = ('a' :: '/' :: file) then
      (true, st.2 ++ (line ++ ['\n']))
    else (false, st.2)
  else if st.1 then (st.1, st.2 ++ (line ++ ['\n']))
  else st

/-- Trailing newlines stripped by a shell command substitution. -/
def stripTrailingNl (s : Str) : Str := (s.reverse.dropWhile (fun c => c == '\n')).reverse

/-- The per-file awk extraction `file_diff=$(echo "$original_diff" | awk ...)`
of `pre_audit.sh` lines 238-250. -/
def awkExtract (file codeChanges : Str) : Str :=
  stripTrailingNl ((jsSplitOnNl codeChanges).foldl (awkStep file) (false, [])).2

/-- Section 7 of `pre_audit.sh` (lines 224-266): when the authorized list is
nonempty, re-derive the diff by concatenating the awk extraction of each
authorized file; when that yields nothing, the original diff is kept with a
warning. -/
def sec7Restrict (combinedFiles codeChanges : Str) : Str :=
  if combinedFiles ≠ [] then
    let fs := (jsSplitOnNl combinedFiles).filter (fun f => f ≠ [])
    let filtered := fs.foldl (fun acc f =>
      let fd := awkExtract f codeChanges
      if fd ≠ [] then acc ++ fd else acc) []
    if filtered ≠ [] then filtered else codeChanges
  else codeChanges

/-- The diff scoper of `pre_audit.sh`: section 7 followed by section 8.
Returns the scoped diff and the unexpected-file list (the discrepancies). -/
def scopedDiff (combinedFiles codeChanges : Str) : Str × List Str :=
  sec8Verify combinedFiles (sec7Restrict combinedFiles codeChanges)

/-- The paths of the file segments of a diff, read off its header lines with
the header pattern of `pre_audit.sh`. -/
def headerPaths (s : Str) : List Str :=
  (jsSplitOnNl s).filterMap bashDiffHeaderPath

/-- Git oracle for the resolver functions of `auto-audit.js`: each field is
the outcome of one `execSync` git invocation (`Except.error` when the command
throws, for example when git is not installed or the directory is not a
repository). -/
structure GitOracle where
  diffCached : Except Str Str
  diffWorking : Except Str Str
  namesCached : Except Str Str
  namesWorking : Except Str Str

/-- Whitespace for JS `String.prototype.trim`. -/
def isJsWs (c : Char) : Bool := c == ' ' || c == '\t' || c == '\n' || c == '\r'

/-- JS `s.trim()` (restricted to the ASCII whitespace relevant here). -/
def jsTrim (s : Str) : Str :=
  ((s.dropWhile (fun c => isJsWs c)).reverse.dropWhile (fun c => isJsWs c)).reverse

/-- The placeholder text returned by `getLatestChanges` when the git query
fails (`auto-audit.js` line 11 of its catch branch). -/
def noChangesMarker : Str := ("// 変更内容を取得できませんでした").data

/-- `getLatestChanges` of `auto-audit.js` (lines 127-139): prefer the staged
diff; when it is blank fall back to the working-tree diff; when a git query
throws, return the fixed placeholder comment instead. -/
def getLatestChanges (g : GitOracle) : Str :=
  match g.diffCached with
  | Except.error _ => noChangesMarker
  | Except.ok d =>
    if jsTrim d = [] then
      match g.diffWorking with
      | Except.error _ => noChangesMarker
      | Except.ok u => u
    else d

/-- Deduplication with JS `Set` semantics: first occurrence wins, insertion
order preserved. -/
def jsSetDedupAux (seen : List Str) : List Str → List Str
  | [] => []
  | x :: xs =>
    if x ∈ seen then jsSetDedupAux seen xs
    else x :: jsSetDedupAux (x :: seen) xs

/-- JS `[...new Set(list)]`. -/
def jsSetDedup (l : List Str) : List Str := jsSetDedupAux [] l

/-- `getChangedFiles` of `auto-audit.js` (lines 157-168): the deduplicated
union of staged and unstaged changed-file names; any git failure yields the
empty list. -/
def getChangedFiles (g : GitOracle) : List Str :=
  match g.namesCached, g.namesWorking with
  | Except.ok s, Except.ok u =>
    jsSetDedup (((jsSplitOnNl s).filter (fun f => f ≠ [])) ++
                ((jsSplitOnNl u).filter (fun f => f ≠ [])))
  | _, _ => []

/-- Characters removed by `tr -d '[:space:]'`. -/
def isPosixSpace (c : Char) : Bool :=
  c == ' ' || c == '\t' || c == '\n' || c == '\r' || c == '\x0b' || c == '\x0c'

/-- Shell `$(cmd || true)`: a failing command degrades to empty output. -/
def shOrTrue (r : Except Str Str) : Str :=
  match r with
  | Except.ok s => s
  | Except.error _ => []

/-- Section 4 of `pre_audit.sh` (lines 112-124): use the staged diff when it
contains a non-whitespace character, otherwise the unstaged diff; each git
query degrades to empty output on failure. -/
def shCodeChanges (g : GitOracle) : Str :=
  let diffCached := shOrTrue g.diffCached
  if diffCached ≠ [] ∧ (diffCached.filter (fun c => !(isPosixSpace c))) ≠ [] then diffCached
  else shOrTrue g.diffWorking

/-- Diff header for file `a` (18 characters). -/
def hdrA : Str := ("diff --git a/a b/a").data

/-- Diff header for file `b` (18 characters). -/
def hdrB : Str := ("diff --git a/b b/b").data

/-- Diff header for file `c` (18 characters). -/
def hdrC : Str := ("diff --git a/c b/c").data

/-- Filler content making `exBigDiff` exactly 15000 characters long. -/
def padBig : Str := List.replicate 14943 'a'

/-- A concrete 15000-character diff with exactly 3 file segments. -/
def exBigDiff : Str := hdrA ++ '\n' :: (hdrB ++ '\n' :: (hdrC ++ '\n' :: padBig))

/-- A concrete audit request whose diff is `exBigDiff`. -/
def exBigReq : AuditRequest :=
  { request := ("r").data
    modification_description := ("m").data
    code_changes := exBigDiff
    function_list := ("fl").data
    changed_files := none }

/-- Diff header for file `x` (18 characters). -/
def hdrX : Str := ("diff --git a/x b/x").data

/-- Diff header for file `y` (18 characters). -/
def hdrY : Str := ("diff --git a/y b/y").data

/-- Filler content making `ex9999Diff` exactly 9999 characters long. -/
def pad9999 : Str := List.replicate 9961 'a'

/-- A concrete 9999-character diff with exactly 2 file segments. -/
def ex9999Diff : Str := hdrX ++ '\n' :: (hdrY ++ '\n' :: pad9999)

/-- A concrete audit request whose diff is `ex9999Diff`. -/
def ex9999Req : AuditRequest :=
  { request := ("r").data
    modification_description := ("m").data
    code_changes := ex9999Diff
    function_list := ("fl").data
    changed_files := none }

/-- A concrete environment selecting the openai provider with its key set and
no DeepSeek key. -/
def envOpenai : Env :=
  { openaiKey := ("sk").data
    deepseekKey := []
    aiProvider := ("openai").data
    defaultAiProvider := [] }

/-- A concrete environment selecting the deepseek provider with its key set
but with `OPENAI_API_KEY` unset. -/
def envDeepseekOnly : Env :=
  { openaiKey := []
    deepseekKey := ("dk").data
    aiProvider := ("deepseek").data
    defaultAiProvider := [] }

/-- A completion text used by the concrete gateway oracles. -/
def okText : Str := ("R").data

/-- An error text used by the concrete gateway oracles. -/
def boomText : Str := ("boom").data

/-- Gateway oracle that answers every call successfully with `okText`. -/
def netAllOk : Gateway := fun _ _ => Except.ok okText

/-- Gateway oracle that fails exactly the completion call of the second
segment (file `b`) of `exBigReq` and answers every other call with
`okText`. -/
def netFailSegB : Gateway := fun _ messages =>
  if messages = auditMessages (perFileRequest exBigReq (('b') :: []) hdrB) then
    Except.error boomText
  else Except.ok okText

/-- The per-file results of `exBigReq` when every segment call succeeds with
`okText`. -/
def exBigOkResults : List (Str × Str) :=
  [(('a') :: [], okText), (('b') :: [], okText), (('c') :: [], okText)]

/-- Gateway oracle that fails exactly the summary call of `exBigReq` (after
all three segment calls succeeded with `okText`) and answers every other call
with `okText`. -/
def netFailSummary : Gateway := fun _ messages =>
  if messages = summaryMessages exBigReq exBigOkResults then Except.error boomText
  else Except.ok okText

/-- Authorized list of the concrete scoper scenario: just `a.ts`. -/
def demoScope : Str := ("a.ts").data

/-- Concrete diff with segments for `a.ts` and `b.ts`. -/
def demoDiff : Str :=
  ("diff --git a/a.ts b/a.ts\n+const x = 1;\ndiff --git a/b.ts b/b.ts\n+const y = 2;").data

/-- Expected scoper output of the concrete scenario: only the `a.ts`
segment, newline-terminated by the stripping loop. -/
def demoScoped : Str := ("diff --git a/a.ts b/a.ts\n+const x = 1;\n").data

/-- Authorized list of the scoper counterexample: the path `axts`, which the
regexp `a.ts` (dot is a wildcard) also matches. -/
def ceScope : Str := ("axts").data

/-- Diff of the scoper counterexample: a single segment for `a.ts`, a path
absent from the authorized list `axts`. -/
def ceDiff : Str := ("diff --git a/a.ts b/a.ts\n+x").data

/-- Diff with a non-header preamble line: the preamble is dropped by
`splitDiffByFiles`, so no concatenation of segment texts can reconstruct
it. -/
def junkDiff : Str := ("junk\ndiff --git a/x b/x\n+1").data

/-- Clean two-segment diff: plain concatenation of its segment texts loses
the newline between the segments. -/
def twoSegDiff : Str := ("diff --git a/x b/x\n+1\ndiff --git a/y b/y\n+2").data

/-- A concrete audit request with an empty diff (the empty authorized scope
scenario). -/
def emptyDiffReq : AuditRequest :=
  { request := ("r").data
    modification_description := ("m").data
    code_changes := []
    function_list := ("fl").data
    changed_files := some [] }

/-- Git oracle in which every git invocation fails (git not installed or not
a repository). -/
def gitFailOracle : GitOracle :=
  { diffCached := Except.error ("spawn git ENOENT").data
    diffWorking := Except.error ("spawn git ENOENT").data
    namesCached := Except.error ("spawn git ENOENT").data
    namesWorking := Except.error ("spawn git ENOENT").data }

/-- A concrete environment selecting the deepseek provider with both keys
set. -/
def envBoth : Env :=
  { openaiKey := ("sk").data
    deepseekKey := ("dk").data
    aiProvider := ("deepseek").data
    defaultAiProvider := [] }

/-- A concrete environment with an unrecognized provider selector. -/
def envBadProvider : Env :=
  { openaiKey := ("sk").data
    deepseekKey := ("dk").data
    aiProvider := ("foo").data
    defaultAiProvider := [] }

deriving instance DecidableEq for Except

deriving instance DecidableEq for SplitState

theorem jsSplitOnNl_ne_nil (s : Str) : jsSplitOnNl s ≠ [] := by
  cases s with
  | nil => simp [jsSplitOnNl]
  | cons c cs =>
    by_cases hc : c = '\n'
    · simp [jsSplitOnNl, hc]
    · simp only [jsSplitOnNl, if_neg hc]
      cases h : jsSplitOnNl cs <;> simp

theorem jsSplitOnNl_append_line (l rest : Str) (h : '\n' ∉ l) :
    jsSplitOnNl (l ++ '\n' :: rest) = l :: jsSplitOnNl rest := by
  induction l with
  | nil => simp [jsSplitOnNl]
  | cons c cs ih =>
    have hc : ¬ c = '\n' := by intro e; subst e; exact h (List.mem_cons_self _ _)
    have h2 : '\n' ∉ cs := fun m => h (List.mem_cons_of_mem _ m)
    have e : jsSplitOnNl (c :: (cs ++ '\n' :: rest)) = (c :: cs) :: jsSplitOnNl rest := by
      simp [jsSplitOnNl, hc, ih h2]
    rw [List.cons_append, e]

theorem jsSplitOnNl_noNl (l : Str) (h : '\n' ∉ l) : jsSplitOnNl l = [l] := by
  induction l with
  | nil => rfl
  | cons c cs ih =>
    have hc : ¬ c = '\n' := by intro e; subst e; exact h (List.mem_cons_self _ _)
    have h2 : '\n' ∉ cs := fun m => h (List.mem_cons_of_mem _ m)
    simp [jsSplitOnNl, hc, ih h2]

theorem noNl_of_mem_jsSplitOnNl (s : Str) : ∀ l ∈ jsSplitOnNl s, '\n' ∉ l := by
  induction s with
  | nil =>
    intro l hl
    simp [jsSplitOnNl] at hl
    simp [hl]
  | cons c cs ih =>
    intro l hl
    by_cases hc : c = '\n'
    · simp only [jsSplitOnNl, if_pos hc] at hl
      rcases List.mem_cons.mp hl with h0 | h0
      · simp [h0]
      · exact ih l h0
    · simp only [jsSplitOnNl, if_neg hc] at hl
      cases h : jsSplitOnNl cs with
      | nil => exact absurd h (jsSplitOnNl_ne_nil cs)
      | cons l0 ls =>
        rw [h] at hl
        rcases List.mem_cons.mp hl with h0 | h0
        · subst h0
          intro hm
          rcases List.mem_cons.mp hm with h1 | h1
          · exact hc h1.symm
          · exact ih l0 (h ▸ List.mem_cons_self _ _) h1
        · exact ih l (h ▸ List.mem_cons_of_mem _ h0)

theorem joinNl_cons (a : Str) (w : List Str) (hw : w ≠ []) :
    joinNl (a :: w) = a ++ '\n' :: joinNl w := by
  cases w with
  | nil => exact absurd rfl hw
  | cons b bs => rfl

theorem joinNl_append (x y : List Str) (hx : x ≠ []) (hy : y ≠ []) :
    joinNl (x ++ y) = joinNl x ++ '\n' :: joinNl y := by
  induction x with
  | nil => exact absurd rfl hx
  | cons a as ih =>
    cases as with
    | nil =>
      cases y with
      | nil => exact absurd rfl hy
      | cons b bs => simp [joinNl_cons, joinNl]
    | cons a2 as2 =>
      have h1 : (a2 :: as2) ++ y ≠ [] := by simp
      rw [List.cons_append, joinNl_cons a _ h1, ih (by simp), joinNl_cons a (a2 :: as2) (by simp)]
      simp

theorem joinNl_two (A : List Str) (u v : Str) :
    joinNl (A ++ [u, v]) = joinNl (A ++ [u ++ '\n' :: v]) := by
  induction A with
  | nil => rfl
  | cons a A ih =>
    have h1 : A ++ [u, v] ≠ [] := by simp
    have h2 : A ++ [u ++ '\n' :: v] ≠ [] := by simp
    rw [List.cons_append, List.cons_append, joinNl_cons a _ h1, joinNl_cons a _ h2, ih]

theorem joinNl_jsSplitOnNl (s : Str) : joinNl (jsSplitOnNl s) = s := by
  induction s with
  | nil => rfl
  | cons c cs ih =>
    by_cases hc : c = '\n'
    · subst hc
      have e : jsSplitOnNl ('\n' :: cs) = [] :: jsSplitOnNl cs := by simp [jsSplitOnNl]
      rw [e, joinNl_cons [] _ (jsSplitOnNl_ne_nil cs)]
      simp [ih]
    · cases h : jsSplitOnNl cs with
      | nil => exact absurd h (jsSplitOnNl_ne_nil cs)
      | cons l0 ls =>
        have e : jsSplitOnNl (c :: cs) = (c :: l0) :: ls := by simp [jsSplitOnNl, hc, h]
        rw [h] at ih
        rw [e]
        cases ls with
        | nil =>
          simp only [joinNl] at ih ⊢
          rw [ih]
        | cons l1 ls1 =>
          rw [joinNl_cons (c :: l0) _ (by simp), List.cons_append,
            ← joinNl_cons l0 _ (by simp), ih]

theorem mapSet_eq_append (m : List (Str × Str)) (k v : Str)
    (h : k ∉ m.map Prod.fst) : mapSet m k v = m ++ [(k, v)] := by
  induction m with
  | nil => rfl
  | cons p rest ih =>
    obtain ⟨k0, v0⟩ := p
    have hk : ¬ k0 = k := by
      intro e
      exact h (by simp [e])
    simp only [mapSet, if_neg hk, List.cons_append]
    rw [ih (fun m' => h (List.mem_cons_of_mem _ m'))]

theorem not_mem_of_nodup_append (a : Str) (A B : List Str)
    (h : (A ++ a :: B).Nodup) : a ∉ A := by
  intro ha
  rcases List.nodup_append.mp h with ⟨_, _, hdisj⟩
  exact hdisj ha (List.mem_cons_self a B)

theorem jsDiffHeaderPath_ne_nil (line p : Str) (h : jsDiffHeaderPath line = some p) :
    p ≠ [] := by
  simp only [jsDiffHeaderPath] at h
  split at h
  · split at h
    · split at h
      · cases h; assumption
      · cases h
    · cases h
  · cases h

theorem splitFold_join (rest : List Str) :
    ∀ (m : List (Str × Str)) (cf : Str) (cc : List Str),
      cf ≠ [] → cc ≠ [] →
      (m.map Prod.fst ++ cf :: rest.filterMap jsDiffHeaderPath).Nodup →
      joinNl ((splitFinish (rest.foldl splitStep ⟨m, cf, cc⟩)).map Prod.snd)
        = joinNl (m.map Prod.snd ++ [joinNl (cc ++ rest)]) := by
  induction rest with
  | nil =>
    intro m cf cc hcf hcc hnd
    have hnm : cf ∉ m.map Prod.fst := not_mem_of_nodup_append cf _ _ (by simpa using hnd)
    simp only [List.foldl_nil, splitFinish, List.append_nil]
    rw [if_pos ⟨hcf, hcc⟩, mapSet_eq_append m cf _ hnm, List.map_append]
    simp
  | cons l rs ih =>
    intro m cf cc hcf hcc hnd
    rw [List.foldl_cons]
    cases hl : jsDiffHeaderPath l with
    | none =>
      have e : splitStep ⟨m, cf, cc⟩ l = ⟨m, cf, cc ++ [l]⟩ := by
        simp [splitStep, hl, hcf]
      rw [e]
      have hnd2 : (m.map Prod.fst ++ cf :: rs.filterMap jsDiffHeaderPath).Nodup := by
        have hfm : (l :: rs).filterMap jsDiffHeaderPath = rs.filterMap jsDiffHeaderPath := by
          simp [List.filterMap_cons, hl]
        rwa [hfm] at hnd
      rw [ih m cf (cc ++ [l]) hcf (by simp) hnd2]
      rw [List.append_assoc, List.singleton_append]
    | some p =>
      have hp : p ≠ [] := jsDiffHeaderPath_ne_nil l p hl
      have hfm : (l :: rs).filterMap jsDiffHeaderPath = p :: rs.filterMap jsDiffHeaderPath := by
        simp [List.filterMap_cons, hl]
      rw [hfm] at hnd
      have hnm : cf ∉ m.map Prod.fst := not_mem_of_nodup_append cf _ _ hnd
      have e : splitStep ⟨m, cf, cc⟩ l = ⟨m ++ [(cf, joinNl cc)], p, [l]⟩ := by
        simp [splitStep, hl, hcf, hcc, mapSet_eq_append m cf _ hnm]
      rw [e]
      have hnd2 : ((m ++ [(cf, joinNl cc)]).map Prod.fst
          ++ p :: rs.filterMap jsDiffHeaderPath).Nodup := by
        rw [List.map_append]
        simpa [List.append_assoc] using hnd
      rw [ih _ p [l] hp (by simp) hnd2]
      rw [List.map_append, List.singleton_append]
      have e2 : (m.map Prod.snd ++ [joinNl cc]) ++ [joinNl (l :: rs)]
          = m.map Prod.snd ++ [joinNl cc, joinNl (l :: rs)] := by
        rw [List.append_assoc]
        rfl
      rw [show ([(cf, joinNl cc)].map Prod.snd) = [joinNl cc] from rfl, e2,
        joinNl_two (m.map Prod.snd) (joinNl cc) (joinNl (l :: rs)),
        ← joinNl_append cc (l :: rs) hcc (by simp)]

/-- C7 counterexample: for the diff `junk\ndiff --git a/x b/x\n+1`, the
preamble line `junk` belongs to no file segment, so neither plain
concatenation nor newline-joining of the segment texts of `splitDiffByFiles`
reconstructs the document; and even for a clean two-segment diff, plain
concatenation loses the newline between the segments. -/
theorem c7_concat_cex :
    ((splitDiffByFiles junkDiff).map Prod.snd).flatten ≠ junkDiff
    ∧ joinNl ((splitDiffByFiles junkDiff).map Prod.snd) ≠ junkDiff
    ∧ ((splitDiffByFiles twoSegDiff).map Prod.snd).flatten ≠ twoSegDiff := by
  refine ⟨by decide, by decide, by decide⟩

/-- C7 (amended): if the first line of the diff is a file header and the
header paths are pairwise distinct, then joining the texts of all file
segments produced by `splitDiffByFiles` with a newline separator, in original
order, reconstructs the diff exactly. -/
theorem c7_concat_amended (d p0 : Str)
    (h0 : jsDiffHeaderPath ((jsSplitOnNl d).headD []) = some p0)
    (hnd : ((jsSplitOnNl d).filterMap jsDiffHeaderPath).Nodup) :
    joinNl ((splitDiffByFiles d).map Prod.snd) = d := by
  have hd : d ≠ [] := by
    intro e
    subst e
    have e2 : (jsSplitOnNl ([] : Str)).headD [] = ([] : Str) := rfl
    rw [e2] at h0
    have e3 : jsDiffHeaderPath ([] : Str) = none := by decide
    rw [e3] at h0
    cases h0
  cases hls : jsSplitOnNl d with
  | nil => exact absurd hls (jsSplitOnNl_ne_nil d)
  | cons l0 rest =>
    rw [hls] at h0
    have h0' : jsDiffHeaderPath l0 = some p0 := h0
    have hstep : splitStep ⟨[], [], []⟩ l0 = ⟨[], p0, [l0]⟩ := by
      simp [splitStep, h0']
    have hnd2 : (([] : List (Str × Str)).map Prod.fst
        ++ p0 :: rest.filterMap jsDiffHeaderPath).Nodup := by
      rw [hls] at hnd
      have hfm : (l0 :: rest).filterMap jsDiffHeaderPath
          = p0 :: rest.filterMap jsDiffHeaderPath := by
        simp [List.filterMap_cons, h0']
      rw [hfm] at hnd
      simpa using hnd
    have hmain := splitFold_join rest [] p0 [l0]
      (jsDiffHeaderPath_ne_nil l0 p0 h0') (by simp) hnd2
    rw [splitDiffByFiles, if_neg hd, hls, List.foldl_cons, hstep, hmain,
      List.singleton_append]
    have e4 : (([] : List (Str × Str)).map Prod.snd) ++ [joinNl (l0 :: rest)]
        = [joinNl (l0 :: rest)] := by simp
    rw [e4]
    have e5 : joinNl [joinNl (l0 :: rest)] = joinNl (l0 :: rest) := rfl
    rw [e5, ← hls, joinNl_jsSplitOnNl]

/-- C7 witness: the amended round-trip equation holds at the concrete clean
two-segment diff. -/
theorem c7_concat_amended_witness :
    joinNl ((splitDiffByFiles twoSegDiff).map Prod.snd) = twoSegDiff :=
  c7_concat_amended twoSegDiff (('x') :: []) (by decide) (by decide)

theorem joinTermNl_append (ls : List Str) (x : Str) :
    joinTermNl (ls ++ [x]) = joinTermNl ls ++ (x ++ ['\n']) := by
  induction ls with
  | nil => rfl
  | cons a as ih => simp [joinTermNl, ih]

theorem jsSplitOnNl_joinTermNl (ls : List Str) (h : ∀ l ∈ ls, '\n' ∉ l) :
    jsSplitOnNl (joinTermNl ls) = ls ++ [[]] := by
  induction ls with
  | nil => rfl
  | cons a as ih =>
    have ha : '\n' ∉ a := h a (List.mem_cons_self _ _)
    have has : ∀ l ∈ as, '\n' ∉ l := fun l m => h l (List.mem_cons_of_mem _ m)
    show jsSplitOnNl (a ++ '\n' :: joinTermNl as) = (a :: as) ++ [[]]
    rw [jsSplitOnNl_append_line a _ ha, ih has]
    rfl

theorem bashDiffHeaderPath_nil : bashDiffHeaderPath [] = none := by decide

theorem sec8Fold_headers (combined : Str) (lines : List Str) :
    ∀ (ls : List Str) (inc : Bool),
      (∀ l ∈ lines, '\n' ∉ l) →
      (∀ l ∈ ls, '\n' ∉ l) →
      (∀ p ∈ ls.filterMap bashDiffHeaderPath, inCombined combined p = true) →
      ∃ ls2 : List Str,
        (lines.foldl (sec8Step combined) ⟨joinTermNl ls, inc⟩).filtered = joinTermNl ls2
        ∧ (∀ l ∈ ls2, '\n' ∉ l)
        ∧ (∀ p ∈ ls2.filterMap bashDiffHeaderPath, inCombined combined p = true) := by
  induction lines with
  | nil =>
    intro ls inc _ hls hok
    exact ⟨ls, rfl, hls, hok⟩
  | cons l rest ih =>
    intro ls inc hlines hls hok
    have hl : '\n' ∉ l := hlines l (List.mem_cons_self _ _)
    have hrest : ∀ x ∈ rest, '\n' ∉ x := fun x m => hlines x (List.mem_cons_of_mem _ m)
    rw [List.foldl_cons]
    cases hh : bashDiffHeaderPath l with
    | some p =>
      by_cases hin : inCombined combined p = true
      · have e : sec8Step combined ⟨joinTermNl ls, inc⟩ l = ⟨joinTermNl (ls ++ [l]), true⟩ := by
          simp [sec8Step, hh, hin, joinTermNl_append]
        rw [e]
        refine ih (ls ++ [l]) true hrest ?_ ?_
        · intro x hx
          rcases List.mem_append.mp hx with hx | hx
          · exact hls x hx
          · rw [List.mem_singleton.mp hx]; exact hl
        · intro q hq
          rw [List.filterMap_append] at hq
          rcases List.mem_append.mp hq with hq | hq
          · exact hok q hq
          · simp [List.filterMap_cons, hh] at hq
            subst hq
            exact hin
      · have hin' : inCombined combined p = false := by
          rwa [Bool.not_eq_true] at hin
        have e : sec8Step combined ⟨joinTermNl ls, inc⟩ l = ⟨joinTermNl ls, false⟩ := by
          simp [sec8Step, hh, hin']
        rw [e]
        exact ih ls false hrest hls hok
    | none =>
      cases inc with
      | true =>
        have e : sec8Step combined ⟨joinTermNl ls, true⟩ l = ⟨joinTermNl (ls ++ [l]), true⟩ := by
          simp [sec8Step, hh, joinTermNl_append]
        rw [e]
        refine ih (ls ++ [l]) true hrest ?_ ?_
        · intro x hx
          rcases List.mem_append.mp hx with hx | hx
          · exact hls x hx
          · rw [List.mem_singleton.mp hx]; exact hl
        · intro q hq
          rw [List.filterMap_append] at hq
          rcases List.mem_append.mp hq with hq | hq
          · exact hok q hq
          · simp [List.filterMap_cons, hh] at hq
      | false =>
        have e : sec8Step combined ⟨joinTermNl ls, false⟩ l = ⟨joinTermNl ls, false⟩ := by
          simp [sec8Step, hh]
        rw [e]
        exact ih ls false hrest hls hok

/-- C2 counterexample: with AuthorizedScope the single path `axts` and a diff
containing a segment for `a.ts`, the scoper keeps the `a.ts` segment and
reports no discrepancy, because membership is tested by `grep` with the header
path interpreted as a regular expression (`a.ts` matches `axts`, the dot
being a wildcard).  The output therefore contains a FileSegment whose path is
absent from AuthorizedScope, refuting the unconditional invariant. -/
theorem c2_scope_invariant_cex :
    (scopedDiff ceScope ceDiff).1 = ceDiff
    ∧ headerPaths (scopedDiff ceScope ceDiff).1 = [("a.ts").data]
    ∧ (("a.ts").data) ∉ jsSplitOnNl ceScope
    ∧ (scopedDiff ceScope ceDiff).2 = [] := by
  refine ⟨by decide, by decide, by decide, by decide⟩

/-- C2 (amended): in the concrete scenario AuthorizedScope = `a.ts` with a
diff containing segments for `a.ts` and `b.ts`, the scoped output contains
only the `a.ts` segment and the discrepancy count is 1; and in general, on
every exit of the scoper on which discrepancies were detected, every
FileSegment of the output diff has a path that regex-matches some line of the
authorized list (exact set membership holds only for regex-literal paths, as
the counterexample shows). -/
theorem c2_scope_invariant_amended :
    ((scopedDiff demoScope demoDiff).1 = demoScoped
      ∧ headerPaths (scopedDiff demoScope demoDiff).1 = [("a.ts").data]
      ∧ (scopedDiff demoScope demoDiff).2.length = 1)
    ∧ ∀ combined d, (scopedDiff combined d).2 ≠ [] →
        ∀ p ∈ headerPaths (scopedDiff combined d).1, inCombined combined p = true := by
  constructor
  · exact ⟨by decide, by decide, by decide⟩
  · intro combined d hne p hp
    have hsv : scopedDiff combined d = sec8Verify combined (sec7Restrict combined d) := rfl
    rw [hsv] at hne hp
    by_cases hu : sec8Unexpected combined (sec7Restrict combined d) = []
    · exfalso
      apply hne
      simp [sec8Verify, hu]
    · have e : sec8Verify combined (sec7Restrict combined d)
          = (((jsSplitOnNl (sec7Restrict combined d)).foldl
                (sec8Step combined) ⟨[], true⟩).filtered,
             sec8Unexpected combined (sec7Restrict combined d)) := by
        simp [sec8Verify, hu]
      rw [e] at hp
      obtain ⟨ls2, hout, hnoNl2, hok2⟩ :=
        sec8Fold_headers combined (jsSplitOnNl (sec7Restrict combined d)) [] true
          (noNl_of_mem_jsSplitOnNl _) (by simp) (by simp)
      have hout' : ((jsSplitOnNl (sec7Restrict combined d)).foldl
          (sec8Step combined) ⟨[], true⟩).filtered = joinTermNl ls2 := hout
      rw [hout'] at hp
      have hhp : headerPaths (joinTermNl ls2) = ls2.filterMap bashDiffHeaderPath := by
        rw [headerPaths, jsSplitOnNl_joinTermNl ls2 hnoNl2, List.filterMap_append]
        simp [List.filterMap_cons, bashDiffHeaderPath_nil]
      rw [hhp] at hp
      exact hok2 p hp

/-- C2 witness: the amended invariant applied at the concrete scenario shows
that the retained path `a.ts` regex-matches the authorized list `a.ts`. -/
theorem c2_scope_invariant_amended_witness :
    inCombined demoScope (("a.ts").data) = true :=
  c2_scope_invariant_amended.2 demoScope demoDiff (by decide) (("a.ts").data) (by decide)

theorem callCompletion_openai (env : Env) (net : Gateway) (ms : List ChatMessage)
    (hp : getAIProvider env = openaiName) (hk : env.openaiKey ≠ []) :
    callCompletion env net ms = net openaiName ms := by
  simp [callCompletion, hp, hk]

theorem callCompletion_deepseek (env : Env) (net : Gateway) (ms : List ChatMessage)
    (hp : getAIProvider env = deepseekName) (hk : env.deepseekKey ≠ []) :
    callCompletion env net ms = net deepseekName ms := by
  have hne : deepseekName ≠ openaiName := by decide
  simp [callCompletion, hp, hne, hk]

theorem callCompletion_unsupported (env : Env) (net : Gateway) (ms : List ChatMessage)
    (h1 : getAIProvider env ≠ openaiName) (h2 : getAIProvider env ≠ deepseekName) :
    callCompletion env net ms = Except.error (unsupportedProviderMsg (getAIProvider env)) := by
  simp [callCompletion, h1, h2]

/-- C9 counterexample: when every git invocation fails, `getLatestChanges`
returns the fixed nonempty placeholder comment, not the empty diff text the
claim asserts (while the changed-file list is indeed empty). -/
theorem c9_resolver_failure_cex :
    getLatestChanges gitFailOracle = noChangesMarker
    ∧ getLatestChanges gitFailOracle ≠ []
    ∧ getChangedFiles gitFailOracle = [] := by
  refine ⟨by decide, by decide, by decide⟩

/-- C9 (amended): if the underlying version-control query fails, the resolver
does not abort: `getLatestChanges` returns the fixed placeholder comment
string (which is not empty), `getChangedFiles` returns the empty list, and
the shell pipeline of `pre_audit.sh` section 4 degrades to an empty diff. -/
theorem c9_resolver_failure_amended (g : GitOracle) :
    (∀ e, g.diffCached = Except.error e → getLatestChanges g = noChangesMarker)
    ∧ (∀ e, g.namesCached = Except.error e → getChangedFiles g = [])
    ∧ (∀ e e2, g.diffCached = Except.error e → g.diffWorking = Except.error e2 →
        shCodeChanges g = []) := by
  refine ⟨?_, ?_, ?_⟩
  · intro e he
    simp [getLatestChanges, he]
  · intro e he
    simp [getChangedFiles, he]
  · intro e e2 h1 h2
    simp [shCodeChanges, shOrTrue, h1, h2]

/-- C9 witness: the amended failure behaviour at the all-failing git
oracle. -/
theorem c9_resolver_failure_amended_witness :
    getLatestChanges gitFailOracle = noChangesMarker
    ∧ getChangedFiles gitFailOracle = []
    ∧ shCodeChanges gitFailOracle = [] :=
  ⟨(c9_resolver_failure_amended gitFailOracle).1 _ rfl,
   (c9_resolver_failure_amended gitFailOracle).2.1 _ rfl,
   (c9_resolver_failure_amended gitFailOracle).2.2 _ _ rfl rfl⟩

/-- C5 counterexample: for an empty diff, `splitDiffByFiles` yields zero
segments, so the dispatcher takes the small path and sends exactly ONE
completion request (not zero), and the resulting report is simply that
completion text (no empty detail section with a no-files summary). -/
theorem c5_empty_scope_cex :
    dispatchedAuditRequests emptyDiffReq = [emptyDiffReq]
    ∧ (dispatchedAuditRequests emptyDiffReq).length ≠ 0
    ∧ callOpenAIAudit envOpenai netAllOk emptyDiffReq = Except.ok okText := by
  refine ⟨by decide, by decide, by decide⟩

/-- C5 (amended): when the scoped diff is the empty string, `splitDiffByFiles`
yields zero segments and the dispatcher takes the single-request path: it
sends exactly one completion request covering the (empty) diff, and the
report is that single completion result. -/
theorem c5_empty_scope_amended (env : Env) (net : Gateway) (inp : AuditRequest)
    (h : inp.code_changes = []) :
    splitDiffByFiles inp.code_changes = []
    ∧ dispatchedAuditRequests inp = [inp]
    ∧ callOpenAIAudit env net inp =
        (if env.openaiKey = [] then Except.error openaiKeyMissingMsg
         else sendSingleAuditRequest env net inp) := by
  have h1 : splitDiffByFiles inp.code_changes = [] := by
    rw [h]
    rfl
  refine ⟨h1, ?_, ?_⟩
  · simp [dispatchedAuditRequests, h1]
  · by_cases hk : env.openaiKey = []
    · simp [callOpenAIAudit, hk]
    · simp [callOpenAIAudit, hk, h1]

/-- C5 witness: the amended single-request behaviour at the concrete empty
request. -/
theorem c5_empty_scope_amended_witness :
    dispatchedAuditRequests emptyDiffReq = [emptyDiffReq]
    ∧ callOpenAIAudit envOpenai netAllOk emptyDiffReq =
        (if envOpenai.openaiKey = [] then Except.error openaiKeyMissingMsg
         else sendSingleAuditRequest envOpenai netAllOk emptyDiffReq) :=
  ⟨(c5_empty_scope_amended envOpenai netAllOk emptyDiffReq rfl).2.1,
   (c5_empty_scope_amended envOpenai netAllOk emptyDiffReq rfl).2.2⟩

/-- C4 counterexample: with the provider selector `deepseek` and
`DEEPSEEK_API_KEY` present but `OPENAI_API_KEY` unset, the audit does not
succeed: `callOpenAIAudit` fails immediately with the missing OpenAI key
error, refuting the claim that the other provider remains usable. -/
theorem c4_provider_credentials_cex :
    getAIProvider envDeepseekOnly = deepseekName
    ∧ envDeepseekOnly.deepseekKey ≠ []
    ∧ callOpenAIAudit envDeepseekOnly netAllOk emptyDiffReq
        = Except.error openaiKeyMissingMsg := by
  refine ⟨by decide, by decide, by decide⟩

/-- C4 (amended): `OPENAI_API_KEY` is required for every audit run regardless
of the selected provider (its absence is always fatal); given that key, an
openai run succeeds without any DeepSeek key, a deepseek run additionally
requires `DEEPSEEK_API_KEY`, and an unrecognized provider selector is fatal
for the run. -/
theorem c4_provider_credentials_amended (env : Env) (net : Gateway) (inp : AuditRequest) :
    (env.openaiKey = [] → callOpenAIAudit env net inp = Except.error openaiKeyMissingMsg)
    ∧ (getAIProvider env = openaiName → env.openaiKey ≠ [] →
        (∀ pr ms, ∃ r, net pr ms = Except.ok r) →
        ∃ out, callOpenAIAudit env net inp = Except.ok out)
    ∧ (getAIProvider env = deepseekName → env.openaiKey ≠ [] → env.deepseekKey ≠ [] →
        (∀ pr ms, ∃ r, net pr ms = Except.ok r) →
        ∃ out, callOpenAIAudit env net inp = Except.ok out)
    ∧ (getAIProvider env ≠ openaiName → getAIProvider env ≠ deepseekName →
        ∃ e, callOpenAIAudit env net inp = Except.error e) := by
  refine ⟨?_, ?_, ?_, ?_⟩
  · intro hk
    simp [callOpenAIAudit, hk]
  · intro hp hk hnet
    by_cases hc : (splitDiffByFiles inp.code_changes).length ≤ 2
        ∨ inp.code_changes.length < 10000
    · obtain ⟨r, hr⟩ := hnet openaiName (auditMessages inp)
      refine ⟨r, ?_⟩
      simp [callOpenAIAudit, hk, hc, sendSingleAuditRequest,
        callCompletion_openai env net _ hp hk, hr]
    · obtain ⟨r, hr⟩ := hnet openaiName
        (summaryMessages inp (fileResultsOf env net inp (splitDiffByFiles inp.code_changes)))
      refine ⟨finalReport r
        (combinedResultsOf (fileResultsOf env net inp (splitDiffByFiles inp.code_changes))), ?_⟩
      simp [callOpenAIAudit, hk, hc, callCompletion_openai env net _ hp hk, hr]
  · intro hp hk hdk hnet
    by_cases hc : (splitDiffByFiles inp.code_changes).length ≤ 2
        ∨ inp.code_changes.length < 10000
    · obtain ⟨r, hr⟩ := hnet deepseekName (auditMessages inp)
      refine ⟨r, ?_⟩
      simp [callOpenAIAudit, hk, hc, sendSingleAuditRequest,
        callCompletion_deepseek env net _ hp hdk, hr]
    · obtain ⟨r, hr⟩ := hnet deepseekName
        (summaryMessages inp (fileResultsOf env net inp (splitDiffByFiles inp.code_changes)))
      refine ⟨finalReport r
        (combinedResultsOf (fileResultsOf env net inp (splitDiffByFiles inp.code_changes))), ?_⟩
      simp [callOpenAIAudit, hk, hc, callCompletion_deepseek env net _ hp hdk, hr]
  · intro h1 h2
    by_cases hk : env.openaiKey = []
    · exact ⟨openaiKeyMissingMsg, by simp [callOpenAIAudit, hk]⟩
    · by_cases hc : (splitDiffByFiles inp.code_changes).length ≤ 2
          ∨ inp.code_changes.length < 10000
      · refine ⟨unsupportedProviderMsg (getAIProvider env), ?_⟩
        simp [callOpenAIAudit, hk, hc, sendSingleAuditRequest,
          callCompletion_unsupported env net _ h1 h2]
      · refine ⟨unsupportedProviderMsg (getAIProvider env), ?_⟩
        simp [callOpenAIAudit, hk, hc, callCompletion_unsupported env net _ h1 h2]

/-- C4 witness: the amended credential behaviour at concrete environments:
the deepseek-only environment is fatal, the openai environment without a
DeepSeek key succeeds, the both-keys deepseek environment succeeds, and the
unrecognized selector is fatal. -/
theorem c4_provider_credentials_amended_witness :
    callOpenAIAudit envDeepseekOnly netAllOk emptyDiffReq = Except.error openaiKeyMissingMsg
    ∧ (∃ out, callOpenAIAudit envOpenai netAllOk emptyDiffReq = Except.ok out)
    ∧ (∃ out, callOpenAIAudit envBoth netAllOk emptyDiffReq = Except.ok out)
    ∧ (∃ e, callOpenAIAudit envBadProvider netAllOk emptyDiffReq = Except.error e) :=
  ⟨(c4_provider_credentials_amended envDeepseekOnly netAllOk emptyDiffReq).1 rfl,
   (c4_provider_credentials_amended envOpenai netAllOk emptyDiffReq).2.1 (by decide)
     (by decide) (fun pr ms => ⟨okText, rfl⟩),
   (c4_provider_credentials_amended envBoth netAllOk emptyDiffReq).2.2.1 (by decide)
     (by decide) (by decide) (fun pr ms => ⟨okText, rfl⟩),
   (c4_provider_credentials_amended envBadProvider netAllOk emptyDiffReq).2.2.2 (by decide)
     (by decide)⟩

theorem noNl_replicate (n : Nat) : '\n' ∉ List.replicate n 'a' := by
  intro h
  rw [List.mem_replicate] at h
  exact absurd h.2 (by decide)

theorem jsDiffHeaderPath_no_marker (line : Str) (h : line.take 13 ≠ diffGitA) :
    jsDiffHeaderPath line = none := by
  unfold jsDiffHeaderPath
  rw [if_neg]
  intro hcond
  exact h hcond.1

theorem pad_no_header (n : Nat) (h : 13 ≤ n) :
    jsDiffHeaderPath (List.replicate n 'a') = none := by
  apply jsDiffHeaderPath_no_marker
  rw [List.take_replicate, show min 13 n = 13 by omega]
  decide

theorem exBigDiff_lines : jsSplitOnNl exBigDiff = [hdrA, hdrB, hdrC, padBig] := by
  rw [exBigDiff, jsSplitOnNl_append_line hdrA _ (by decide),
    jsSplitOnNl_append_line hdrB _ (by decide),
    jsSplitOnNl_append_line hdrC _ (by decide),
    jsSplitOnNl_noNl padBig (noNl_replicate 14943)]

theorem exBigDiff_split :
    splitDiffByFiles exBigDiff
      = [((('a') :: []), hdrA), ((('b') :: []), hdrB),
         ((('c') :: []), hdrC ++ '\n' :: padBig)] := by
  have hd : exBigDiff ≠ [] := by
    rw [exBigDiff]
    intro e
    rcases List.append_eq_nil.mp e with ⟨e1, _⟩
    exact absurd e1 (by decide)
  have s1 : splitStep ⟨[], [], []⟩ hdrA = ⟨[], ('a') :: [], [hdrA]⟩ := by decide
  have s2 : splitStep ⟨[], ('a') :: [], [hdrA]⟩ hdrB
      = ⟨[((('a') :: []), hdrA)], ('b') :: [], [hdrB]⟩ := by decide
  have s3 : splitStep ⟨[((('a') :: []), hdrA)], ('b') :: [], [hdrB]⟩ hdrC
      = ⟨[((('a') :: []), hdrA), ((('b') :: []), hdrB)], ('c') :: [], [hdrC]⟩ := by decide
  have hpadNH : jsDiffHeaderPath padBig = none := by
    rw [show padBig = List.replicate 14943 'a' from rfl]
    exact pad_no_header 14943 (by omega)
  have s4 : splitStep ⟨[((('a') :: []), hdrA), ((('b') :: []), hdrB)], ('c') :: [], [hdrC]⟩ padBig
      = ⟨[((('a') :: []), hdrA), ((('b') :: []), hdrB)], ('c') :: [], [hdrC, padBig]⟩ := by
    simp [splitStep, hpadNH]
  rw [splitDiffByFiles, if_neg hd, exBigDiff_lines, List.foldl_cons, s1, List.foldl_cons, s2,
    List.foldl_cons, s3, List.foldl_cons, s4, List.foldl_nil]
  rw [splitFinish, if_pos ⟨by decide, by simp⟩]
  rw [mapSet_eq_append _ _ _ (by decide)]
  rfl

theorem exBigDiff_length : exBigDiff.length = 15000 := by
  have la : hdrA.length = 18 := by decide
  have lb : hdrB.length = 18 := by decide
  have lc : hdrC.length = 18 := by decide
  have lp : padBig.length = 14943 := List.length_replicate 14943 'a'
  rw [exBigDiff]
  simp [List.length_append, la, lb, lc, lp]

theorem ex9999Diff_lines : jsSplitOnNl ex9999Diff = [hdrX, hdrY, pad9999] := by
  rw [ex9999Diff, jsSplitOnNl_append_line hdrX _ (by decide),
    jsSplitOnNl_append_line hdrY _ (by decide),
    jsSplitOnNl_noNl pad9999 (noNl_replicate 9961)]

theorem ex9999Diff_split :
    splitDiffByFiles ex9999Diff
      = [((('x') :: []), hdrX), ((('y') :: []), hdrY ++ '\n' :: pad9999)] := by
  have hd : ex9999Diff ≠ [] := by
    rw [ex9999Diff]
    intro e
    rcases List.append_eq_nil.mp e with ⟨e1, _⟩
    exact absurd e1 (by decide)
  have s1 : splitStep ⟨[], [], []⟩ hdrX = ⟨[], ('x') :: [], [hdrX]⟩ := by decide
  have s2 : splitStep ⟨[], ('x') :: [], [hdrX]⟩ hdrY
      = ⟨[((('x') :: []), hdrX)], ('y') :: [], [hdrY]⟩ := by decide
  have hpadNH : jsDiffHeaderPath pad9999 = none := by
    rw [show pad9999 = List.replicate 9961 'a' from rfl]
    exact pad_no_header 9961 (by omega)
  have s3 : splitStep ⟨[((('x') :: []), hdrX)], ('y') :: [], [hdrY]⟩ pad9999
      = ⟨[((('x') :: []), hdrX)], ('y') :: [], [hdrY, pad9999]⟩ := by
    simp [splitStep, hpadNH]
  rw [splitDiffByFiles, if_neg hd, ex9999Diff_lines, List.foldl_cons, s1, List.foldl_cons, s2,
    List.foldl_cons, s3, List.foldl_nil]
  rw [splitFinish, if_pos ⟨by decide, by simp⟩]
  rw [mapSet_eq_append _ _ _ (by decide)]
  rfl

theorem ex9999Diff_length : ex9999Diff.length = 9999 := by
  have lx : hdrX.length = 18 := by decide
  have ly : hdrY.length = 18 := by decide
  have lp : pad9999.length = 9961 := List.length_replicate 9961 'a'
  rw [ex9999Diff]
  simp [List.length_append, lx, ly, lp]

theorem exBig_not_small :
    ¬ ((splitDiffByFiles exBigReq.code_changes).length ≤ 2
       ∨ exBigReq.code_changes.length < 10000) := by
  rw [show exBigReq.code_changes = exBigDiff from rfl, exBigDiff_split, exBigDiff_length]
  decide

/-- C1: the dispatcher sends exactly one audit request covering the whole
diff if and only if the number of file segments is at most 2 or the diff has
strictly fewer than 10000 characters; otherwise it sends exactly one audit
request per file segment.  In particular 2 segments with 9999 characters
dispatch as one request and 3 segments with 15000 characters dispatch as 3
requests; and on the single-request path `callOpenAIAudit` performs exactly
the one whole-diff request. -/
theorem c1_dispatch_threshold (env : Env) (net : Gateway) (inp : AuditRequest) :
    (dispatchedAuditRequests inp = [inp]
      ↔ (splitDiffByFiles inp.code_changes).length ≤ 2 ∨ inp.code_changes.length < 10000)
    ∧ (¬ ((splitDiffByFiles inp.code_changes).length ≤ 2 ∨ inp.code_changes.length < 10000) →
        dispatchedAuditRequests inp
          = (splitDiffByFiles inp.code_changes).map (fun fd => perFileRequest inp fd.1 fd.2)
        ∧ (dispatchedAuditRequests inp).length = (splitDiffByFiles inp.code_changes).length)
    ∧ ((splitDiffByFiles inp.code_changes).length = 2 ∧ inp.code_changes.length = 9999 →
        dispatchedAuditRequests inp = [inp])
    ∧ ((splitDiffByFiles inp.code_changes).length = 3 ∧ inp.code_changes.length = 15000 →
        (dispatchedAuditRequests inp).length = 3)
    ∧ ((splitDiffByFiles inp.code_changes).length ≤ 2 ∨ inp.code_changes.length < 10000 →
        env.openaiKey ≠ [] →
        callOpenAIAudit env net inp = sendSingleAuditRequest env net inp) := by
  refine ⟨?_, ?_, ?_, ?_, ?_⟩
  · constructor
    · intro he
      by_contra hc
      have hd : dispatchedAuditRequests inp
          = (splitDiffByFiles inp.code_changes).map (fun fd => perFileRequest inp fd.1 fd.2) := by
        simp [dispatchedAuditRequests, hc]
      rw [hd] at he
      have hlen := congrArg List.length he
      rw [List.length_map, List.length_singleton] at hlen
      rcases not_or.mp hc with ⟨h1, _⟩
      apply h1
      omega
    · intro hcond
      simp [dispatchedAuditRequests, hcond]
  · intro hc
    constructor
    · simp [dispatchedAuditRequests, hc]
    · simp [dispatchedAuditRequests, hc, List.length_map]
  · rintro ⟨h2, _⟩
    have hcond : (splitDiffByFiles inp.code_changes).length ≤ 2
        ∨ inp.code_changes.length < 10000 := Or.inl (by omega)
    simp [dispatchedAuditRequests, hcond]
  · rintro ⟨h3, hlen⟩
    have hcond : ¬ ((splitDiffByFiles inp.code_changes).length ≤ 2
        ∨ inp.code_changes.length < 10000) := by
      rw [h3, hlen]
      decide
    have hd : dispatchedAuditRequests inp
        = (splitDiffByFiles inp.code_changes).map (fun fd => perFileRequest inp fd.1 fd.2) := by
      simp [dispatchedAuditRequests, hcond]
    rw [hd, List.length_map, h3]
  · intro hcond hk
    simp [callOpenAIAudit, hk, hcond]

/-- C1 witness: the threshold boundary at concrete diffs: the 9999-character
two-segment diff dispatches as one whole-diff request, and the
15000-character three-segment diff dispatches as three per-file requests. -/
theorem c1_dispatch_threshold_witness :
    dispatchedAuditRequests ex9999Req = [ex9999Req]
    ∧ (dispatchedAuditRequests exBigReq).length = 3 :=
  ⟨(c1_dispatch_threshold envOpenai netAllOk ex9999Req).2.2.1
     ⟨by rw [show ex9999Req.code_changes = ex9999Diff from rfl, ex9999Diff_split]; rfl,
      by rw [show ex9999Req.code_changes = ex9999Diff from rfl, ex9999Diff_length]⟩,
   (c1_dispatch_threshold envOpenai netAllOk exBigReq).2.2.2.1
     ⟨by rw [show exBigReq.code_changes = exBigDiff from rfl, exBigDiff_split]; rfl,
      by rw [show exBigReq.code_changes = exBigDiff from rfl, exBigDiff_length]⟩⟩

/-- C3: on the per-file dispatch path, a failing segment call is caught and
recorded as that file's visible error marker, without aborting the run or
losing the other segments: for a 3-segment dispatch in which segment 2 fails,
the final report contains the summary plus sections with the results of
segments 1 and 3 and the error-marker section for segment 2, in order. -/
theorem c3_segment_failure_isolated (env : Env) (net : Gateway) (inp : AuditRequest)
    (f1 d1 f2 d2 f3 d3 r1 r3 e S : Str)
    (hseg : splitDiffByFiles inp.code_changes = [(f1, d1), (f2, d2), (f3, d3)])
    (hlen : 10000 ≤ inp.code_changes.length)
    (hk : env.openaiKey ≠ [])
    (h1 : sendSingleAuditRequest env net (perFileRequest inp f1 d1) = Except.ok r1)
    (h2 : sendSingleAuditRequest env net (perFileRequest inp f2 d2) = Except.error e)
    (h3 : sendSingleAuditRequest env net (perFileRequest inp f3 d3) = Except.ok r3)
    (hs : callCompletion env net
        (summaryMessages inp [(f1, r1), (f2, errorMarker e), (f3, r3)]) = Except.ok S) :
    fileResultsOf env net inp (splitDiffByFiles inp.code_changes)
      = [(f1, r1), (f2, errorMarker e), (f3, r3)]
    ∧ callOpenAIAudit env net inp
      = Except.ok (finalReport S
          (combinedResultsOf [(f1, r1), (f2, errorMarker e), (f3, r3)])) := by
  have hfr : fileResultsOf env net inp (splitDiffByFiles inp.code_changes)
      = [(f1, r1), (f2, errorMarker e), (f3, r3)] := by
    rw [hseg]
    simp [fileResultsOf, h1, h2, h3]
  refine ⟨hfr, ?_⟩
  have hc : ¬ ((splitDiffByFiles inp.code_changes).length ≤ 2
      ∨ inp.code_changes.length < 10000) := by
    rw [hseg]
    intro hor
    rcases hor with h | h
    · rw [List.length_cons, List.length_cons, List.length_cons, List.length_nil] at h
      omega
    · omega
  simp [callOpenAIAudit, hk, hc, hfr, hs]

/-- C3 witness: the failure-isolation behaviour at the concrete 3-segment
15000-character diff with the gateway failing exactly on segment `b`. -/
theorem c3_segment_failure_isolated_witness :
    callOpenAIAudit envOpenai netFailSegB exBigReq
      = Except.ok (finalReport okText
          (combinedResultsOf [((('a') :: []), okText),
            ((('b') :: []), errorMarker boomText), ((('c') :: []), okText)])) :=
  (c3_segment_failure_isolated envOpenai netFailSegB exBigReq
    (('a') :: []) hdrA (('b') :: []) hdrB (('c') :: []) (hdrC ++ '\n' :: padBig)
    okText okText boomText okText
    exBigDiff_split
    (by rw [show exBigReq.code_changes = exBigDiff from rfl, exBigDiff_length]; omega)
    (by decide) (by decide) (by decide) (by decide) (by decide)).2

/-- C6: on every multi-segment run, the final report is the summary section
followed by the per-file sections in exactly the dispatch order (the file
segment order of the scoped diff), each section rendered as the label
`## <path> の監査結果:` followed by that segment's completion text, joined by
the separator rule; the per-file result order always equals the segment
order. -/
theorem c6_report_order (env : Env) (net : Gateway) (inp : AuditRequest) (S : Str)
    (hk : env.openaiKey ≠ [])
    (hc : ¬ ((splitDiffByFiles inp.code_changes).length ≤ 2
        ∨ inp.code_changes.length < 10000))
    (hs : callCompletion env net
        (summaryMessages inp (fileResultsOf env net inp (splitDiffByFiles inp.code_changes)))
      = Except.ok S) :
    callOpenAIAudit env net inp
      = Except.ok (finalReport S
          (joinSep sepRule
            ((fileResultsOf env net inp (splitDiffByFiles inp.code_changes)).map sectionRender)))
    ∧ (fileResultsOf env net inp (splitDiffByFiles inp.code_changes)).map Prod.fst
      = (splitDiffByFiles inp.code_changes).map Prod.fst := by
  constructor
  · simp [callOpenAIAudit, hk, hc, hs, combinedResultsOf]
  · rw [fileResultsOf, List.map_map]
    apply List.map_congr_left
    intro fd _
    cases hr : sendSingleAuditRequest env net (perFileRequest inp fd.1 fd.2) <;>
      simp [hr]

/-- C6 witness: the report layout and ordering at the concrete 3-segment
diff with an all-successful gateway. -/
theorem c6_report_order_witness :
    callOpenAIAudit envOpenai netAllOk exBigReq
      = Except.ok (finalReport okText
          (joinSep sepRule
            ((fileResultsOf envOpenai netAllOk exBigReq
                (splitDiffByFiles exBigReq.code_changes)).map sectionRender)))
    ∧ (fileResultsOf envOpenai netAllOk exBigReq
        (splitDiffByFiles exBigReq.code_changes)).map Prod.fst
      = (splitDiffByFiles exBigReq.code_changes).map Prod.fst :=
  c6_report_order envOpenai netAllOk exBigReq okText (by decide) exBig_not_small rfl

/-- C8: on the per-file dispatch path, the run makes exactly one additional
summary completion call whose prompt embeds the modification description and,
for every per-file result, its path plus the first 100 characters of its
completion text (the remainder is truncated away), so the prompt does not
depend on anything of a completion text beyond its first 100 characters. -/
theorem c8_summary_truncation (env : Env) (net : Gateway) (inp : AuditRequest)
    (hk : env.openaiKey ≠ [])
    (hc : ¬ ((splitDiffByFiles inp.code_changes).length ≤ 2
        ∨ inp.code_changes.length < 10000)) :
    callOpenAIAudit env net inp
      = Except.map
          (fun s => finalReport s
            (combinedResultsOf (fileResultsOf env net inp (splitDiffByFiles inp.code_changes))))
          (callCompletion env net
            (summaryMessages inp (fileResultsOf env net inp (splitDiffByFiles inp.code_changes))))
    ∧ (∀ frs : List (Str × Str), summaryMessages inp frs
        = [⟨systemRole, summarySystemPrompt⟩, ⟨userRole, summaryPrompt inp frs⟩])
    ∧ (∀ frs : List (Str × Str), summaryPrompt inp frs
        = summaryPrompt inp (frs.map (fun it => (it.1, it.2.take 100)))) := by
  refine ⟨?_, fun frs => rfl, ?_⟩
  · cases hr : callCompletion env net
        (summaryMessages inp (fileResultsOf env net inp (splitDiffByFiles inp.code_changes))) with
    | ok s => simp [callOpenAIAudit, hk, hc, hr, Except.map]
    | error e => simp [callOpenAIAudit, hk, hc, hr, Except.map]
  · intro frs
    have hmap : frs.map summaryLine
        = (frs.map (fun it => (it.1, it.2.take 100))).map summaryLine := by
      rw [List.map_map]
      apply List.map_congr_left
      intro it _
      simp [summaryLine, List.take_take]
    rw [summaryPrompt, summaryPrompt, ← hmap]

/-- C8 witness: the summary-call shape and truncation at the concrete
3-segment diff. -/
theorem c8_summary_truncation_witness :
    callOpenAIAudit envOpenai netAllOk exBigReq
      = Except.map
          (fun s => finalReport s
            (combinedResultsOf (fileResultsOf envOpenai netAllOk exBigReq
              (splitDiffByFiles exBigReq.code_changes))))
          (callCompletion envOpenai netAllOk
            (summaryMessages exBigReq (fileResultsOf envOpenai netAllOk exBigReq
              (splitDiffByFiles exBigReq.code_changes))))
    ∧ (∀ frs : List (Str × Str), summaryMessages exBigReq frs
        = [⟨systemRole, summarySystemPrompt⟩, ⟨userRole, summaryPrompt exBigReq frs⟩])
    ∧ (∀ frs : List (Str × Str), summaryPrompt exBigReq frs
        = summaryPrompt exBigReq (frs.map (fun it => (it.1, it.2.take 100)))) :=
  c8_summary_truncation envOpenai netAllOk exBigReq (by decide) exBig_not_small

/-- C10: on the per-file dispatch path, if every per-segment completion call
succeeds but the subsequent summary completion call fails, the whole audit
fails: `callOpenAIAudit` propagates the summary error, so `performAudit`
returns only that error and no report record is produced — per-segment
failure isolation does not extend to the summary call. -/
theorem c10_summary_failure_fatal (env : Env) (net : Gateway) (inp : AuditRequest)
    (reportPath e : Str)
    (hk : env.openaiKey ≠ [])
    (hc : ¬ ((splitDiffByFiles inp.code_changes).length ≤ 2
        ∨ inp.code_changes.length < 10000))
    (_hsegs : ∀ fd ∈ splitDiffByFiles inp.code_changes,
        ∃ r, sendSingleAuditRequest env net (perFileRequest inp fd.1 fd.2) = Except.ok r)
    (hs : callCompletion env net
        (summaryMessages inp (fileResultsOf env net inp (splitDiffByFiles inp.code_changes)))
      = Except.error e) :
    callOpenAIAudit env net inp = Except.error e
    ∧ performAudit env net reportPath inp = Except.error e := by
  have h1 : callOpenAIAudit env net inp = Except.error e := by
    simp [callOpenAIAudit, hk, hc, hs]
  exact ⟨h1, by simp [performAudit, h1]⟩

/-- C10 witness: the summary-failure behaviour at the concrete 3-segment
diff whose per-segment calls all succeed while the summary call fails. -/
theorem c10_summary_failure_fatal_witness :
    callOpenAIAudit envOpenai netFailSummary exBigReq = Except.error boomText
    ∧ performAudit envOpenai netFailSummary (("p").data) exBigReq
      = Except.error boomText := by
  have hfr : fileResultsOf envOpenai netFailSummary exBigReq
      (splitDiffByFiles exBigReq.code_changes) = exBigOkResults := by
    rw [show splitDiffByFiles exBigReq.code_changes
        = [((('a') :: []), hdrA), ((('b') :: []), hdrB),
           ((('c') :: []), hdrC ++ '\n' :: padBig)] from exBigDiff_split]
    have e1 : sendSingleAuditRequest envOpenai netFailSummary
        (perFileRequest exBigReq (('a') :: []) hdrA) = Except.ok okText := by decide
    have e2 : sendSingleAuditRequest envOpenai netFailSummary
        (perFileRequest exBigReq (('b') :: []) hdrB) = Except.ok okText := by decide
    have e3 : sendSingleAuditRequest envOpenai netFailSummary
        (perFileRequest exBigReq (('c') :: []) (hdrC ++ '\n' :: padBig))
        = Except.ok okText := by decide
    simp [fileResultsOf, e1, e2, e3, exBigOkResults]
  exact c10_summary_failure_fatal envOpenai netFailSummary exBigReq (("p").data) boomText
    (by decide) exBig_not_small
    (by
      intro fd hfd
      rw [show splitDiffByFiles exBigReq.code_changes
          = [((('a') :: []), hdrA), ((('b') :: []), hdrB),
             ((('c') :: []), hdrC ++ '\n' :: padBig)] from exBigDiff_split] at hfd
      rcases List.mem_cons.mp hfd with h | hfd
      · exact ⟨okText, by rw [h]; decide⟩
      rcases List.mem_cons.mp hfd with h | hfd
      · exact ⟨okText, by rw [h]; decide⟩
      rcases List.mem_cons.mp hfd with h | hfd
      · exact ⟨okText, by rw [h]; decide⟩
      · cases hfd)
    (by rw [hfr]; decide)
